import Mathlib

/-!
Shallow embedding of function_checkpointing/save_restore.pyx.

The module captures and restores Python call-frame state:
loop_nesting_level analyses an instruction stream, snapshot_frame turns a
live frame into a SavedStackFrame record, restore_frame writes a record
back into a frame, save_jump walks the live call chain, and jump together
with pyeval_fast_forward replays a saved chain.

Machine-level notions are modelled as follows: a PyObject slot in the
f_localsplus array is an Option Value (none models a NULL pointer), pointer
differences such as f_valuestack - f_localsplus are Nat offsets from the
base of the slot array, Python ints are Int, Python list indexing (with its
negative-index wrap-around) is pyGet, and raised exceptions are error
values of an Except or an Option-error component.
-/

/-! Opcode constants imported by the source from function_checkpointing.jump;
their numeric values are the CPython 3.8 opcode numbers. -/

deriving instance DecidableEq for Except

def JUMP_ABSOLUTE : Nat := 113

def FOR_ITER : Nat := 93

def EXCEPT_HANDLER : Nat := 257

def SETUP_FINALLY : Nat := 122

def CALL_FUNCTION : Nat := 131

def CALL_METHOD : Nat := 161

def CALL_FUNCTION_KW : Nat := 141

def CALL_FUNCTION_EX : Nat := 142

/-- One decoded instruction of dis.Bytecode: opcode and numeric argument.
For absolute-jump instructions the argument is a byte offset, so the index
of the jump target in the instruction list is arg / 2. -/
structure Instr where
  opcode : Nat
  arg : Nat
deriving DecidableEq, Repr

/-- Python list indexing: a negative index wraps around from the end of the
list; an index out of range raises IndexError, modelled as none. -/
def pyGet {α : Type} (l : List α) (i : Int) : Option α :=
  if i < 0 then
    if 0 ≤ i + l.length then l.get? (i + (l.length : Int)).toNat else none
  else l.get? i.toNat

/-- The scanning while-loop of loop_nesting_level: starting at index
ending_at, find the first instruction whose opcode is JUMP_ABSOLUTE.
Result .ok (some p) models the break at index p, .ok none models the
while-else branch (the scan ran off the end of the list), and .error ()
models an IndexError raised by the indexing expression. -/
def find_jump (instructions : List Instr) (ending_at : Int) : Except Unit (Option Int) :=
  if h : ending_at < (instructions.length : Int) then
    match pyGet instructions ending_at with
    | none => .error ()
    | some ins =>
      if ins.opcode = JUMP_ABSOLUTE then .ok (some ending_at)
      else find_jump instructions (ending_at + 1)
  else .ok none
termination_by ((instructions.length : Int) - ending_at).toNat
decreasing_by
  simp_wf
  omega

/-- The break index returned by find_jump lies between the scan start and
the end of the instruction list. -/
lemma find_jump_ok_bounds : ∀ (k : Nat) (l : List Instr) (e p : Int),
    ((l.length : Int) - e).toNat ≤ k → find_jump l e = .ok (some p) →
    e ≤ p ∧ p < (l.length : Int) := by
  intro k
  induction k with
  | zero =>
    intro l e p hk h
    unfold find_jump at h
    rw [dif_neg (by omega)] at h
    exact absurd h (by simp)
  | succ k ih =>
    intro l e p hk h
    unfold find_jump at h
    by_cases hlt : e < (l.length : Int)
    · rw [dif_pos hlt] at h
      cases hg : pyGet l e with
      | none => rw [hg] at h; exact absurd h (by simp)
      | some ins =>
        rw [hg] at h
        dsimp only at h
        by_cases hja : ins.opcode = JUMP_ABSOLUTE
        · rw [if_pos hja] at h
          simp only [Except.ok.injEq, Option.some.injEq] at h
          omega
        · rw [if_neg hja] at h
          have := ih l (e + 1) p (by omega) h
          omega
    · rw [dif_neg hlt] at h
      exact absurd h (by simp)

/-- loop_nesting_level from the source: count the for loops surrounding the
instruction range [starting_from, ending_at]. The source default argument
ending_at = starting_from is supplied explicitly at every call site of this
embedding. The result is .error () when list indexing raises IndexError. -/
def loop_nesting_level (instructions : List Instr)
    (starting_from : Int) (ending_at : Int) : Except Unit Nat :=
  match hfj : find_jump instructions ending_at with
  | .error e => .error e
  | .ok none => .ok 0
  | .ok (some p) =>
    match pyGet instructions p with
    | none => .error ()
    | some jump_ins =>
      let jump_target : Nat := jump_ins.arg / 2
      if (jump_target : Int) < starting_from then
        match instructions.get? jump_target with
        | none => .error ()
        | some target_ins =>
          if target_ins.opcode = FOR_ITER then
            match loop_nesting_level instructions ((jump_target : Int) - 1) (p + 1) with
            | .error e => .error e
            | .ok n => .ok (1 + n)
          else loop_nesting_level instructions starting_from (p + 1)
      else loop_nesting_level instructions starting_from (p + 1)
termination_by ((instructions.length : Int) - ending_at).toNat
decreasing_by
  all_goals simp_wf
  all_goals {
    have hb := find_jump_ok_bounds (((instructions.length : Int) - ending_at).toNat)
      instructions ending_at p (le_refl _) hfj
    omega
  }

/-! Fuel-indexed variants of the two recursions above. They compute by
kernel reduction (the well-founded definitions do not), and the agreement
lemmas below make the termination argument of loop_nesting_level explicit:
the fuel ((length - ending_at).toNat + 1) always suffices because every
recursive call strictly increases ending_at. -/

/-- find_jump with explicit fuel; none models fuel exhaustion. -/
def find_jump_fuel (instructions : List Instr) (ending_at : Int) :
    Nat → Option (Except Unit (Option Int))
  | 0 => if (instructions.length : Int) ≤ ending_at then some (.ok none) else none
  | fuel + 1 =>
    if ending_at < (instructions.length : Int) then
      match pyGet instructions ending_at with
      | none => some (.error ())
      | some ins =>
        if ins.opcode = JUMP_ABSOLUTE then some (.ok (some ending_at))
        else find_jump_fuel instructions (ending_at + 1) fuel
    else some (.ok none)

/-- loop_nesting_level with explicit fuel; none models fuel exhaustion. -/
def loop_nesting_level_fuel (instructions : List Instr)
    (starting_from : Int) (ending_at : Int) : Nat → Option (Except Unit Nat)
  | 0 => none
  | fuel + 1 =>
    match find_jump_fuel instructions ending_at (fuel + 1) with
    | none => none
    | some (.error e) => some (.error e)
    | some (.ok none) => some (.ok 0)
    | some (.ok (some p)) =>
      match pyGet instructions p with
      | none => some (.error ())
      | some jump_ins =>
        let jump_target : Nat := jump_ins.arg / 2
        if (jump_target : Int) < starting_from then
          match instructions.get? jump_target with
          | none => some (.error ())
          | some target_ins =>
            if target_ins.opcode = FOR_ITER then
              match loop_nesting_level_fuel instructions ((jump_target : Int) - 1) (p + 1) fuel with
              | none => none
              | some (.error e) => some (.error e)
              | some (.ok n) => some (.ok (1 + n))
            else loop_nesting_level_fuel instructions starting_from (p + 1) fuel
        else loop_nesting_level_fuel instructions starting_from (p + 1) fuel

/-- With fuel at least (length - ending_at).toNat, find_jump_fuel converges
to find_jump. -/
lemma find_jump_fuel_agree : ∀ (fuel : Nat) (l : List Instr) (e : Int),
    ((l.length : Int) - e).toNat ≤ fuel →
    find_jump_fuel l e fuel = some (find_jump l e) := by
  intro fuel
  induction fuel with
  | zero =>
    intro l e hk
    unfold find_jump_fuel find_jump
    rw [if_pos (by omega), dif_neg (by omega)]
  | succ fuel ih =>
    intro l e hk
    unfold find_jump_fuel find_jump
    by_cases hlt : e < (l.length : Int)
    · rw [if_pos hlt, dif_pos hlt]
      cases hg : pyGet l e with
      | none => rfl
      | some ins =>
        dsimp only
        by_cases hja : ins.opcode = JUMP_ABSOLUTE
        · rw [if_pos hja, if_pos hja]
        · rw [if_neg hja, if_neg hja]
          exact ih l (e + 1) (by omega)
    · rw [if_neg hlt, dif_neg hlt]

/-- With fuel strictly greater than (length - ending_at).toNat, the fuel
version of loop_nesting_level converges to the well-founded one: this is
the termination bound of the source recursion. -/
lemma loop_nesting_level_fuel_agree : ∀ (fuel : Nat) (l : List Instr) (s e : Int),
    ((l.length : Int) - e).toNat < fuel →
    loop_nesting_level_fuel l s e fuel = some (loop_nesting_level l s e) := by
  intro fuel
  induction fuel with
  | zero => intro l s e hk; omega
  | succ fuel ih =>
    intro l s e hk
    unfold loop_nesting_level_fuel
    unfold loop_nesting_level
    rw [find_jump_fuel_agree (fuel + 1) l e (by omega)]
    cases hfj : find_jump l e with
    | error er => rfl
    | ok o =>
      cases o with
      | none => rfl
      | some p =>
        have hb := find_jump_ok_bounds (((l.length : Int) - e).toNat) l e p (le_refl _) hfj
        dsimp only
        cases hg : pyGet l p with
        | none => rfl
        | some jump_ins =>
          dsimp only
          by_cases hlt : ((jump_ins.arg / 2 : Nat) : Int) < s
          · rw [if_pos hlt, if_pos hlt]
            cases ht : l.get? (jump_ins.arg / 2) with
            | none => rfl
            | some target_ins =>
              dsimp only
              by_cases hfo : target_ins.opcode = FOR_ITER
              · rw [if_pos hfo, if_pos hfo]
                rw [ih l (((jump_ins.arg / 2 : Nat) : Int) - 1) (p + 1) (by omega)]
                cases loop_nesting_level l (((jump_ins.arg / 2 : Nat) : Int) - 1) (p + 1) with
                | error er => rfl
                | ok n => rfl
              · rw [if_neg hfo, if_neg hfo]
                exact ih l s (p + 1) (by omega)
          · rw [if_neg hlt, if_neg hlt]
            exact ih l s (p + 1) (by omega)

/-- Transfer a kernel-computable fuel evaluation to loop_nesting_level. -/
lemma loop_nesting_level_eval {l : List Instr} {s e : Int} {r : Except Unit Nat} {fuel : Nat}
    (hf : ((l.length : Int) - e).toNat < fuel)
    (hc : loop_nesting_level_fuel l s e fuel = some r) :
    loop_nesting_level l s e = r := by
  have h := loop_nesting_level_fuel_agree fuel l s e hf
  rw [hc] at h
  exact (Option.some.inj h).symm

/-- Once ending_at reaches the length of the instruction list, the
while-else branch returns 0 with no recursive call. -/
lemma loop_nesting_level_ge_len (l : List Instr) (s e : Int)
    (h : (l.length : Int) ≤ e) : loop_nesting_level l s e = .ok 0 := by
  unfold loop_nesting_level
  have hfj : find_jump l e = .ok none := by
    unfold find_jump
    rw [dif_neg (by omega)]
  rw [hfj]

/-! Data model of frames, captured values and saved records. -/

/-- A captured Python value, modelled as an abstract PyObject: the source
never inspects captured values except for the len call of the
keyword-argument integrity assertion, so a value is an object identity plus
the optional result of Python len() on it (some for sized objects such as
the keyword-name tuple, none for objects with no length). The NULLObject
sentinel of the source is represented in this model by the none case of
an Option Value slot, never by a Value. -/
structure Value where
  id : Nat
  py_len : Option Nat
deriving DecidableEq, Repr

/-- The None object returned by a Cython cdef object function that falls
off its end without an explicit return statement. -/
def PyNone : Value := ⟨0, none⟩

/-- One PyTryBlock entry of the frame block stack. -/
structure TryBlock where
  b_type : Nat
  b_handler : Nat
  b_level : Nat
deriving DecidableEq, Repr

/-- A live PyFrameObject. Pointers into the f_localsplus slot array are
modelled as Nat offsets from its base: f_valuestack is the pointer
difference f_valuestack - f_localsplus of the source (the number of
declared local-variable slots) and f_stacktop is the pointer difference
f_stacktop - f_localsplus. A slot holding none models a NULL pointer. -/
structure Frame where
  f_lasti : Int
  f_localsplus : List (Option Value)
  f_valuestack : Nat
  f_stacktop : Nat
  f_blockstack : List TryBlock
  instructions : List Instr
  co_code : List Nat
deriving DecidableEq, Repr

/-- The SavedStackFrame namedtuple. A none entry of stack_content is the
NULLObject sentinel standing for an empty slot. -/
structure SavedStackFrame where
  f_lasti : Int
  stack_content : List (Option Value)
  co_code : List Nat
  try_block_stack : List TryBlock
deriving DecidableEq, Repr

/-- Failures of snapshot_frame: indexError models an IndexError from list
indexing, assertionFailed the failed keyword-argument-count assertion,
notImplemented the NotImplementedError for an unrecognized call opcode, and
invalidFrame a read that the C code would perform on memory outside the
valid slot area (or a len call on a slot that holds no sized object). -/
inductive SnapErr where
  | indexError
  | assertionFailed
  | notImplemented
  | invalidFrame
deriving DecidableEq, Repr

/-- Number of EXCEPT_HANDLER blocks on the block stack; the source loop
adds 3 to stack_size for each of them. -/
def count_except_handlers (blocks : List TryBlock) : Nat :=
  (blocks.filter (fun b => b.b_type = EXCEPT_HANDLER)).length

/-- Python len() of the object held at slot i, as used by the assertion in
the CALL_FUNCTION_KW branch; none when the slot is NULL, out of range, or
holds an object with no length. -/
def py_len_at (slots : List (Option Value)) (i : Nat) : Option Nat :=
  match slots.get? i with
  | some (some v) => v.py_len
  | _ => none

/-- The elif chain of snapshot_frame on the opname of the call instruction,
returning the final stack_size. The source compares opname strings; opname
and opcode determine each other, so the embedding compares opcodes. -/
def snapshot_call_slots (frame : Frame) (base : Nat) (call_instr : Instr) :
    Except SnapErr Nat :=
  if call_instr.opcode = CALL_FUNCTION then
    .ok (base + 1 + call_instr.arg)
  else if call_instr.opcode = CALL_METHOD then
    .ok (base + 2 + call_instr.arg)
  else if call_instr.opcode = CALL_FUNCTION_KW then
    let stack_size := base + 2 + call_instr.arg
    match py_len_at frame.f_localsplus (stack_size - 1) with
    | some n => if n = call_instr.arg then .ok stack_size else .error .assertionFailed
    | none => .error .invalidFrame
  else if call_instr.opcode = CALL_FUNCTION_EX then
    .ok (base + 2 + call_instr.arg % 2)
  else .error .notImplemented

/-- The stack_content list comprehension: the first stack_size slots of
f_localsplus, with NULL slots becoming the NULLObject sentinel (none).
Reading past the end of the slot array is a wild C read, modelled as an
error. -/
def capture_stack (slots : List (Option Value)) (stack_size : Nat) :
    Except SnapErr (List (Option Value)) :=
  if stack_size ≤ slots.length then .ok (slots.take stack_size) else .error .invalidFrame

/-- snapshot_frame from the source: compute the live stack size and copy
the ephemeral state of one frame into a SavedStackFrame. -/
def snapshot_frame (frame : Frame) : Except SnapErr SavedStackFrame :=
  match pyGet frame.instructions (Int.fdiv frame.f_lasti 2) with
  | none => .error .indexError
  | some call_instr =>
    match loop_nesting_level frame.instructions
        (Int.fdiv frame.f_lasti 2) (Int.fdiv frame.f_lasti 2) with
    | .error _ => .error .indexError
    | .ok nesting =>
      match snapshot_call_slots frame
          (frame.f_valuestack + 3 * count_except_handlers frame.f_blockstack + nesting)
          call_instr with
      | .error er => .error er
      | .ok stack_size =>
        match capture_stack frame.f_localsplus stack_size with
        | .error er => .error er
        | .ok stack_content =>
          .ok ⟨frame.f_lasti, stack_content, frame.co_code, frame.f_blockstack⟩

/-- snapshot_frame with the fuel variant of loop_nesting_level hoisted to
the front, so that concrete snapshots compute by kernel reduction. -/
def snapshot_frame_fuel (frame : Frame) (fuel : Nat) :
    Option (Except SnapErr SavedStackFrame) :=
  match loop_nesting_level_fuel frame.instructions
      (Int.fdiv frame.f_lasti 2) (Int.fdiv frame.f_lasti 2) fuel with
  | none => none
  | some lnl_result =>
    some (match pyGet frame.instructions (Int.fdiv frame.f_lasti 2) with
      | none => .error .indexError
      | some call_instr =>
        match lnl_result with
        | .error _ => .error .indexError
        | .ok nesting =>
          match snapshot_call_slots frame
              (frame.f_valuestack + 3 * count_except_handlers frame.f_blockstack + nesting)
              call_instr with
          | .error er => .error er
          | .ok stack_size =>
            match capture_stack frame.f_localsplus stack_size with
            | .error er => .error er
            | .ok stack_content =>
              .ok ⟨frame.f_lasti, stack_content, frame.co_code, frame.f_blockstack⟩)

lemma snapshot_frame_fuel_agree (frame : Frame) (fuel : Nat)
    (hf : ((frame.instructions.length : Int) - Int.fdiv frame.f_lasti 2).toNat < fuel) :
    snapshot_frame_fuel frame fuel = some (snapshot_frame frame) := by
  unfold snapshot_frame_fuel snapshot_frame
  rw [loop_nesting_level_fuel_agree fuel frame.instructions
    (Int.fdiv frame.f_lasti 2) (Int.fdiv frame.f_lasti 2) hf]

/-- Transfer a kernel-computable fuel evaluation to snapshot_frame. -/
lemma snapshot_frame_eval {frame : Frame} {r : Except SnapErr SavedStackFrame} {fuel : Nat}
    (hf : ((frame.instructions.length : Int) - Int.fdiv frame.f_lasti 2).toNat < fuel)
    (hc : snapshot_frame_fuel frame fuel = some r) :
    snapshot_frame frame = r := by
  have h := snapshot_frame_fuel_agree frame fuel hf
  rw [hc] at h
  exact (Option.some.inj h).symm

/-- Structure of every successful snapshot: the record copies f_lasti,
co_code and the block stack, and its stack_content is an in-range prefix of
the f_localsplus slots. -/
lemma snapshot_frame_ok_inv {frame : Frame} {r : SavedStackFrame}
    (h : snapshot_frame frame = .ok r) :
    r.stack_content = frame.f_localsplus.take r.stack_content.length
    ∧ r.stack_content.length ≤ frame.f_localsplus.length
    ∧ r.f_lasti = frame.f_lasti
    ∧ r.co_code = frame.co_code
    ∧ r.try_block_stack = frame.f_blockstack := by
  unfold snapshot_frame at h
  split at h
  · exact absurd h (by simp)
  · split at h
    · exact absurd h (by simp)
    · split at h
      · exact absurd h (by simp)
      · rename_i stack_size heq
        split at h
        · exact absurd h (by simp)
        · rename_i stack_content hcap
          unfold capture_stack at hcap
          split at hcap
          · rename_i hle
            simp only [Except.ok.injEq] at hcap h
            subst hcap
            rw [← h]
            refine ⟨?_, ?_, rfl, rfl, rfl⟩
            · simp [List.length_take, Nat.min_def]
              split <;> simp_all
            · simp [List.length_take]
          · exact absurd hcap (by simp)

/-! Restore engine. -/

/-- Failure of restore_frame: the RuntimeError raised when the code bytes
of the frame differ from the saved co_code fingerprint. -/
inductive RestoreErr where
  | codeMismatch
deriving DecidableEq, Repr

/-- The slot-writing loop of restore_frame: write each entry of
stack_content into the slot array in order (the sentinel becomes a NULL
slot) and record, in order, every real value on which Py_INCREF is called.
Writes past the end of the slot area (a C buffer overrun the source never
performs, since a fresh frame allocates the same slot count) are dropped.
-/
def write_stack : List (Option Value) → List (Option Value) →
    List (Option Value) × List Value
  | slots, [] => (slots, [])
  | [], content => ([], content.filterMap id)
  | _ :: slots, o :: content =>
    let rest := write_stack slots content
    (o :: rest.1, match o with
      | some v => v :: rest.2
      | none => rest.2)

/-- restore_frame from the source, as a state transformer: the result is
the frame after the call, the list of values INCREFed during it, and the
exception raised, if any. The fingerprint check precedes every mutation,
so on mismatch the input frame is returned unchanged. -/
def restore_frame (frame : Frame) (saved_frame : SavedStackFrame) :
    Frame × List Value × Option RestoreErr :=
  if frame.co_code ≠ saved_frame.co_code then
    (frame, [], some .codeMismatch)
  else
    let written := write_stack frame.f_localsplus saved_frame.stack_content
    ({ frame with
        f_lasti := saved_frame.f_lasti - 2,
        f_localsplus := written.1,
        f_stacktop := saved_frame.stack_content.length,
        f_blockstack := saved_frame.try_block_stack },
      written.2, none)

/-! Resume driver: save_jump, pyeval_fast_forward and jump. -/

/-- The frame-evaluation hook slot of the interpreter state:
tstate.interp.eval_frame either holds the default evaluator or
pyeval_fast_forward. -/
inductive EvalHook where
  | defaultEval
  | fastForward
deriving DecidableEq, Repr

/-- The interpreter state visible to the module: the eval_frame hook, the
live frame chain as reached from PyEval_GetFrame by following f_back
(innermost frame first), and the module-global jump_stack. -/
structure InterpState where
  eval_frame : EvalHook
  frames : List Frame
  jump_stack : List SavedStackFrame
deriving DecidableEq, Repr

/-- The frame walk of save_jump: snapshot every frame of the chain in
order, propagating the first exception. -/
def snapshot_chain : List Frame → Except SnapErr (List SavedStackFrame)
  | [] => .ok []
  | f :: rest =>
    match snapshot_frame f with
    | .error er => .error er
    | .ok r =>
      match snapshot_chain rest with
      | .error er => .error er
      | .ok rs => .ok (r :: rs)

/-- save_jump from the source: if the eval hook from a previous jump is
still installed, disarm it and return the empty list without snapshotting;
otherwise walk the chain from PyEval_GetFrame outward and snapshot every
frame, innermost first. -/
def save_jump (st : InterpState) :
    InterpState × Except SnapErr (List SavedStackFrame) :=
  if st.eval_frame = .fastForward then
    ({ st with eval_frame := .defaultEval }, .ok [])
  else
    (st, snapshot_chain st.frames)

/-- Python list.pop(): remove and return the last element; none models the
IndexError on an empty list. -/
def pop_last (l : List SavedStackFrame) :
    Option (SavedStackFrame × List SavedStackFrame) :=
  match l.getLast? with
  | none => none
  | some x => some (x, l.dropLast)

/-- The order in which successive jump_stack.pop() calls of
pyeval_fast_forward consume a jump_stack that starts as l. -/
def consume_trace (l : List SavedStackFrame) : List SavedStackFrame :=
  match h : pop_last l with
  | none => []
  | some (x, rest) => x :: consume_trace rest
termination_by l.length
decreasing_by
  simp_wf
  unfold pop_last at h
  cases hl : l.getLast? with
  | none => rw [hl] at h; exact absurd h (by simp)
  | some y =>
    rw [hl] at h
    simp only [Option.some.injEq, Prod.mk.injEq] at h
    have hne : l ≠ [] := by
      intro he
      rw [he] at hl
      exact absurd hl (by simp)
    have hpos : 0 < l.length := List.length_pos.mpr hne
    rw [← h.2]
    have hdl : l.dropLast.length = l.length - 1 := List.length_dropLast l
    omega

/-- Errors that can surface out of a jump call. -/
inductive RunErr where
  | indexError
  | codeMismatch
  | noTopFrame
deriving DecidableEq, Repr

/-- pyeval_fast_forward from the source, for one hook invocation. The
parameter evalDefault abstracts _PyEval_EvalFrameDefault, the evaluation of
the restored frame by the host VM. The source binds its result to r and
then falls off the end of the cdef object function, so the hook returns the
None object, not r. -/
def pyeval_fast_forward (evalDefault : Frame → Int → Value)
    (st : InterpState) (frame : Frame) (exc : Int) :
    Except RunErr (InterpState × Value) :=
  let st₁ : InterpState := { st with eval_frame := .defaultEval }
  match pop_last st₁.jump_stack with
  | none => .error .indexError
  | some (saved, rest) =>
    match restore_frame frame saved with
    | (_, _, some .codeMismatch) => .error .codeMismatch
    | (frame', _, none) =>
      let st₂ : InterpState := { st₁ with jump_stack := rest, eval_frame := .fastForward }
      let _r := evalDefault frame' exc
      .ok (st₂, PyNone)

/-- jump from the source: clear and refill the global jump_stack, walk to
the outermost live frame, install the hook, and invoke
pyeval_fast_forward on that frame. -/
def jump (evalDefault : Frame → Int → Value) (st : InterpState)
    (saved_frames : List SavedStackFrame) : Except RunErr (InterpState × Value) :=
  let st₁ : InterpState := { st with jump_stack := saved_frames }
  match st₁.frames.getLast? with
  | none => .error .noTopFrame
  | some top_frame =>
    let st₂ : InterpState := { st₁ with eval_frame := .fastForward }
    pyeval_fast_forward evalDefault st₂ top_frame 0

/-! Helper lemmas about the restore loop. -/

/-- In-range writes: the loop overwrites exactly the first
content.length slots with content, keeps the rest, and INCREFs exactly the
real values of content, in order. -/
lemma write_stack_spec : ∀ (content slots : List (Option Value)),
    content.length ≤ slots.length →
    write_stack slots content =
      (content ++ slots.drop content.length, content.filterMap id) := by
  intro content
  induction content with
  | nil =>
    intro slots _
    cases slots with
    | nil => rfl
    | cons s ss => rfl
  | cons o cs ih =>
    intro slots hlen
    cases slots with
    | nil => simp at hlen
    | cons s ss =>
      unfold write_stack
      rw [ih ss (by simpa using hlen)]
      cases o with
      | none => simp [List.filterMap_cons]
      | some v => simp [List.filterMap_cons]

/-! Claim theorems. -/

/-- Claim C3: restoring a record whose code fingerprint differs from the
code bytes of the frame raises CodeMismatch (the RuntimeError of the
source) and leaves the frame completely unmutated — the state transformer
returns the input frame itself, so resume position, stack slots, stack-top
pointer and exception-block stack are all unchanged, and no INCREF is
performed. -/
theorem c3_code_mismatch_rejection (frame : Frame) (saved : SavedStackFrame)
    (h : frame.co_code ≠ saved.co_code) :
    restore_frame frame saved = (frame, [], some RestoreErr.codeMismatch) := by
  unfold restore_frame
  rw [if_pos h]

def frameC3 : Frame :=
  { f_lasti := 2, f_localsplus := [some ⟨3, none⟩], f_valuestack := 1,
    f_stacktop := 1, f_blockstack := [], instructions := [⟨CALL_FUNCTION, 0⟩],
    co_code := [131, 0] }

def savedC3 : SavedStackFrame :=
  { f_lasti := 2, stack_content := [some ⟨9, none⟩], co_code := [116, 0],
    try_block_stack := [] }

theorem c3_witness :
    frameC3.co_code ≠ savedC3.co_code
    ∧ restore_frame frameC3 savedC3 = (frameC3, [], some RestoreErr.codeMismatch) :=
  ⟨by decide, c3_code_mismatch_rejection frameC3 savedC3 (by decide)⟩

/-- Claim C5: on a fingerprint match, restore_frame sets the resume
position of the frame to the saved f_lasti minus 2, the width of one
instruction step, so that re-entering the evaluation loop (which resumes at
f_lasti + 2) re-executes the captured call instruction from scratch. -/
theorem c5_resume_position_rewind (frame : Frame) (saved : SavedStackFrame)
    (h : frame.co_code = saved.co_code) :
    ((restore_frame frame saved).1.f_lasti = saved.f_lasti - 2)
    ∧ (restore_frame frame saved).2.2 = none := by
  unfold restore_frame
  rw [if_neg (by simp [h])]
  exact ⟨rfl, rfl⟩

def savedC5 : SavedStackFrame :=
  { f_lasti := 2, stack_content := [some ⟨9, none⟩], co_code := [131, 0],
    try_block_stack := [] }

theorem c5_witness :
    frameC3.co_code = savedC5.co_code
    ∧ ((restore_frame frameC3 savedC5).1.f_lasti = savedC5.f_lasti - 2
       ∧ (restore_frame frameC3 savedC5).2.2 = none) :=
  ⟨by decide, c5_resume_position_rewind frameC3 savedC5 (by decide)⟩

/-- Claim C6: calling save_jump while the pyeval_fast_forward hook from a
previous jump is still installed restores the default frame evaluator and
returns the empty list, snapshotting nothing: the rest of the interpreter
state is untouched, so a capture() reached again via resume observes an
empty sequence. -/
theorem c6_capture_during_resume (st : InterpState)
    (h : st.eval_frame = .fastForward) :
    save_jump st = ({ st with eval_frame := .defaultEval }, .ok []) := by
  unfold save_jump
  rw [if_pos h]

def stC6 : InterpState :=
  { eval_frame := .fastForward, frames := [frameC3], jump_stack := [savedC5] }

theorem c6_witness :
    stC6.eval_frame = .fastForward
    ∧ save_jump stC6 = ({ stC6 with eval_frame := .defaultEval }, .ok []) :=
  ⟨by decide, c6_capture_during_resume stC6 (by decide)⟩

/-- Claim C8: snapshot followed by restore round-trips the operand stack
exactly. Whenever snapshot_frame succeeds on a frame and the record is
restored into a frame with matching code and enough slots, the restore
succeeds, every restored slot equals the captured slot at the same position
(a slot that was NULL at capture is recorded as the sentinel and restored
as a NULL slot, never as a stray value), the record is exactly the captured
prefix of the slot array, and the list of Py_INCREF calls performed by the
restore is exactly the real values of the record, one INCREF per restored
real value. -/
theorem c8_operand_stack_roundtrip (f g : Frame) (r : SavedStackFrame)
    (hs : snapshot_frame f = .ok r)
    (hcode : g.co_code = f.co_code)
    (hroom : r.stack_content.length ≤ g.f_localsplus.length) :
    ∃ g' incs, restore_frame g r = (g', incs, none)
      ∧ (∀ i, i < r.stack_content.length →
          g'.f_localsplus.get? i = f.f_localsplus.get? i)
      ∧ r.stack_content = f.f_localsplus.take r.stack_content.length
      ∧ incs = r.stack_content.filterMap id := by
  obtain ⟨htake, hle, hlasti, hco, hblocks⟩ := snapshot_frame_ok_inv hs
  have hmatch : ¬ g.co_code ≠ r.co_code := by
    rw [hcode, hco]
    exact fun hne => hne rfl
  have hres : restore_frame g r =
      ({ g with
          f_lasti := r.f_lasti - 2,
          f_localsplus := r.stack_content ++ g.f_localsplus.drop r.stack_content.length,
          f_stacktop := r.stack_content.length,
          f_blockstack := r.try_block_stack },
        r.stack_content.filterMap id, none) := by
    unfold restore_frame
    rw [if_neg hmatch]
    dsimp only
    rw [write_stack_spec r.stack_content g.f_localsplus hroom]
  refine ⟨_, _, hres, ?_, htake, rfl⟩
  intro i hi
  dsimp only
  rw [List.get?_append hi]
  conv_lhs => rw [htake]
  exact List.get?_take hi

def frameC8cap : Frame :=
  { f_lasti := 0, f_localsplus := [some ⟨5, none⟩, none, some ⟨7, none⟩],
    f_valuestack := 1, f_stacktop := 3, f_blockstack := [],
    instructions := [⟨CALL_FUNCTION, 1⟩], co_code := [131, 2] }

def savedC8 : SavedStackFrame :=
  { f_lasti := 0, stack_content := [some ⟨5, none⟩, none, some ⟨7, none⟩],
    co_code := [131, 2], try_block_stack := [] }

def frameC8fresh : Frame :=
  { f_lasti := 0, f_localsplus := [none, none, none], f_valuestack := 1,
    f_stacktop := 0, f_blockstack := [], instructions := [⟨CALL_FUNCTION, 1⟩],
    co_code := [131, 2] }

theorem c8_witness :
    snapshot_frame frameC8cap = .ok savedC8
    ∧ ∃ g' incs, restore_frame frameC8fresh savedC8 = (g', incs, none)
      ∧ (∀ i, i < savedC8.stack_content.length →
          g'.f_localsplus.get? i = frameC8cap.f_localsplus.get? i)
      ∧ savedC8.stack_content =
          frameC8cap.f_localsplus.take savedC8.stack_content.length
      ∧ incs = savedC8.stack_content.filterMap id := by
  have hs : snapshot_frame frameC8cap = .ok savedC8 :=
    @snapshot_frame_eval frameC8cap _ 4 (by decide) (by decide)
  exact ⟨hs, c8_operand_stack_roundtrip frameC8cap frameC8fresh savedC8 hs
    (by decide) (by decide)⟩

/-! Claim C1: the return value of jump. The docstring of jump states that
the return value of jump() is the return value of the outermost frame, but
pyeval_fast_forward binds r = _PyEval_EvalFrameDefault(frame, exc) and then
falls off the end of the cdef object function without returning r, so jump
always yields the None object no matter what the replayed chain produces.
The scenario below replays a one-frame chain whose outermost call evaluates
to the object with identity 42. -/

def evalC1 : Frame → Int → Value := fun _ _ => ⟨42, none⟩

def frameC1 : Frame :=
  { f_lasti := 2, f_localsplus := [some ⟨3, none⟩], f_valuestack := 1,
    f_stacktop := 1, f_blockstack := [], instructions := [⟨116, 0⟩, ⟨CALL_FUNCTION, 0⟩],
    co_code := [116, 0, 131, 0] }

def savedC1 : SavedStackFrame :=
  { f_lasti := 2, stack_content := [some ⟨3, none⟩], co_code := [116, 0, 131, 0],
    try_block_stack := [] }

def stC1 : InterpState :=
  { eval_frame := .defaultEval, frames := [frameC1], jump_stack := [] }

/-- Claim C1 fails on the code: replaying a chain whose outermost call
produces the object 42 makes jump return the None object instead of that
value. The first conjunct evaluates jump at the failing input, the second
evaluates what the outermost originally-captured call would have produced
there, and the third separates the two. -/
theorem c1_jump_returns_none_not_value :
    (jump evalC1 stC1 [savedC1]).map (fun p => p.2) = .ok PyNone
    ∧ evalC1 ((restore_frame frameC1 savedC1).1) 0 = ⟨42, none⟩
    ∧ PyNone ≠ (⟨42, none⟩ : Value) := by
  refine ⟨?_, rfl, by decide⟩
  decide

/-! Claim C7: capture order and resume consumption order. -/

/-- Successive list.pop() calls consume a Python list in reverse order. -/
lemma consume_trace_reverse : ∀ (n : Nat) (l : List SavedStackFrame),
    l.length ≤ n → consume_trace l = l.reverse := by
  intro n
  induction n with
  | zero =>
    intro l hl
    have : l = [] := List.length_eq_zero.mp (by omega)
    subst this
    unfold consume_trace
    rfl
  | succ n ih =>
    intro l hl
    cases hl0 : l with
    | nil => unfold consume_trace; rfl
    | cons a as =>
      rw [← hl0]
      have hne : l ≠ [] := by rw [hl0]; simp
      unfold consume_trace
      have hpop : pop_last l = some (l.getLast hne, l.dropLast) := by
        unfold pop_last
        rw [List.getLast?_eq_getLast l hne]
      rw [hpop]
      dsimp only
      have hdrop : l.dropLast.length ≤ n := by
        have := List.length_dropLast l
        rw [hl0] at this ⊢
        simp at this ⊢
        rw [hl0] at hl
        simp at hl
        omega
      rw [ih l.dropLast hdrop]
      conv_rhs => rw [← List.dropLast_append_getLast hne]
      rw [List.reverse_append]
      rfl

/-- Pointwise reading of a successful chain walk: record i is the snapshot
of frame i, for every i. -/
lemma snapshot_chain_spec : ∀ (fs : List Frame) (rs : List SavedStackFrame),
    snapshot_chain fs = .ok rs →
    rs.length = fs.length
    ∧ ∀ i (h1 : i < fs.length) (h2 : i < rs.length),
        snapshot_frame (fs.get ⟨i, h1⟩) = .ok (rs.get ⟨i, h2⟩) := by
  intro fs
  induction fs with
  | nil =>
    intro rs h
    unfold snapshot_chain at h
    simp only [Except.ok.injEq] at h
    subst h
    exact ⟨rfl, fun i h1 _ => absurd h1 (by simp)⟩
  | cons f rest ih =>
    intro rs h
    unfold snapshot_chain at h
    cases hf : snapshot_frame f with
    | error er => rw [hf] at h; exact absurd h (by simp)
    | ok r =>
      rw [hf] at h
      dsimp only at h
      cases hc : snapshot_chain rest with
      | error er => rw [hc] at h; exact absurd h (by simp)
      | ok rs' =>
        rw [hc] at h
        dsimp only at h
        simp only [Except.ok.injEq] at h
        subst h
        obtain ⟨hlen, hpt⟩ := ih rs' hc
        refine ⟨by simp [hlen], ?_⟩
        intro i h1 h2
        cases i with
        | zero => simpa using hf
        | succ j =>
          simp only [List.get_cons_succ]
          exact hpt j (by simpa using h1) (by simpa using h2)

/-- Claim C7: with no hook installed, save_jump walks the live chain from
the immediate caller outward and snapshots every frame in that order, so
the returned list holds the records innermost-first (record i is the
snapshot of frame i of the chain), and the state is otherwise untouched;
jump fills the global jump_stack with that list and pyeval_fast_forward
consumes it by list.pop(), i.e. in reverse: outermost-first. -/
theorem c7_capture_order_and_resume_order (st : InterpState)
    (recs : List SavedStackFrame)
    (hidle : st.eval_frame = .defaultEval)
    (hchain : snapshot_chain st.frames = .ok recs) :
    save_jump st = (st, .ok recs)
    ∧ recs.length = st.frames.length
    ∧ (∀ i (h1 : i < st.frames.length) (h2 : i < recs.length),
        snapshot_frame (st.frames.get ⟨i, h1⟩) = .ok (recs.get ⟨i, h2⟩))
    ∧ consume_trace recs = recs.reverse := by
  obtain ⟨hlen, hpt⟩ := snapshot_chain_spec st.frames recs hchain
  refine ⟨?_, hlen, hpt, consume_trace_reverse recs.length recs (le_refl _)⟩
  unfold save_jump
  rw [if_neg (by rw [hidle]; decide), hchain]

def frameC7a : Frame :=
  { f_lasti := 2, f_localsplus := [some ⟨1, none⟩, some ⟨2, none⟩],
    f_valuestack := 1, f_stacktop := 2, f_blockstack := [],
    instructions := [⟨116, 0⟩, ⟨CALL_FUNCTION, 0⟩], co_code := [1] }

def frameC7b : Frame :=
  { f_lasti := 2, f_localsplus := [some ⟨3, none⟩, some ⟨4, none⟩],
    f_valuestack := 1, f_stacktop := 2, f_blockstack := [],
    instructions := [⟨116, 0⟩, ⟨CALL_FUNCTION, 0⟩], co_code := [2] }

def savedC7a : SavedStackFrame :=
  { f_lasti := 2, stack_content := [some ⟨1, none⟩, some ⟨2, none⟩],
    co_code := [1], try_block_stack := [] }

def savedC7b : SavedStackFrame :=
  { f_lasti := 2, stack_content := [some ⟨3, none⟩, some ⟨4, none⟩],
    co_code := [2], try_block_stack := [] }

def stC7 : InterpState :=
  { eval_frame := .defaultEval, frames := [frameC7a, frameC7b], jump_stack := [] }

theorem c7_witness :
    stC7.eval_frame = .defaultEval
    ∧ snapshot_chain stC7.frames = .ok [savedC7a, savedC7b]
    ∧ (save_jump stC7 = (stC7, .ok [savedC7a, savedC7b])
       ∧ ([savedC7a, savedC7b] : List SavedStackFrame).length = stC7.frames.length
       ∧ (∀ i (h1 : i < stC7.frames.length)
            (h2 : i < ([savedC7a, savedC7b] : List SavedStackFrame).length),
            snapshot_frame (stC7.frames.get ⟨i, h1⟩) =
              .ok (([savedC7a, savedC7b] : List SavedStackFrame).get ⟨i, h2⟩))
       ∧ consume_trace [savedC7a, savedC7b] = ([savedC7a, savedC7b] : List SavedStackFrame).reverse) := by
  have h1 : snapshot_frame frameC7a = .ok savedC7a :=
    @snapshot_frame_eval frameC7a _ 4 (by decide) (by decide)
  have h2 : snapshot_frame frameC7b = .ok savedC7b :=
    @snapshot_frame_eval frameC7b _ 4 (by decide) (by decide)
  have hchain : snapshot_chain stC7.frames = .ok [savedC7a, savedC7b] := by
    show snapshot_chain [frameC7a, frameC7b] = .ok [savedC7a, savedC7b]
    simp only [snapshot_chain, h1, h2]
  exact ⟨rfl, hchain,
    c7_capture_order_and_resume_order stC7 [savedC7a, savedC7b] rfl hchain⟩

/-- Claim C2: for a frame whose active instruction is a recognized call
variant, the stack size that snapshot_frame computes is the number of
declared local-variable slots (f_valuestack - f_localsplus), plus 3 for
every active EXCEPT_HANDLER block on the block stack, plus the
loop_nesting_level at the resume position, plus the call-variant slots
(CALL_FUNCTION: 1 + arg; CALL_METHOD: 2 + arg; CALL_FUNCTION_KW: 2 + arg;
CALL_FUNCTION_EX: 2 plus 1 when the low argument bit signals a
keyword-arguments mapping), and the captured stack_content has exactly
that many entries. -/
theorem c2_snapshot_stack_size (frame : Frame) (ci : Instr) (nest vs : Nat)
    (hci : pyGet frame.instructions (Int.fdiv frame.f_lasti 2) = some ci)
    (hnest : loop_nesting_level frame.instructions (Int.fdiv frame.f_lasti 2)
      (Int.fdiv frame.f_lasti 2) = .ok nest)
    (hvariant :
      (ci.opcode = CALL_FUNCTION ∧ vs = 1 + ci.arg)
      ∨ (ci.opcode = CALL_METHOD ∧ vs = 2 + ci.arg)
      ∨ (ci.opcode = CALL_FUNCTION_KW ∧ vs = 2 + ci.arg ∧
          ∃ v : Value, frame.f_localsplus.get?
              (frame.f_valuestack + 3 * count_except_handlers frame.f_blockstack
                + nest + 2 + ci.arg - 1) = some (some v)
            ∧ v.py_len = some ci.arg)
      ∨ (ci.opcode = CALL_FUNCTION_EX ∧ vs = 2 + ci.arg % 2))
    (hroom : frame.f_valuestack + 3 * count_except_handlers frame.f_blockstack + nest + vs
        ≤ frame.f_localsplus.length) :
    ∃ r, snapshot_frame frame = .ok r
      ∧ r.stack_content.length =
          frame.f_valuestack + 3 * count_except_handlers frame.f_blockstack + nest + vs := by
  have hslots : snapshot_call_slots frame
      (frame.f_valuestack + 3 * count_except_handlers frame.f_blockstack + nest) ci =
      .ok (frame.f_valuestack + 3 * count_except_handlers frame.f_blockstack + nest + vs) := by
    rcases hvariant with ⟨hop, hvs⟩ | ⟨hop, hvs⟩ | ⟨hop, hvs, v, hget, hlen⟩ | ⟨hop, hvs⟩
    · unfold snapshot_call_slots
      rw [if_pos hop]
      simp only [Except.ok.injEq]
      omega
    · unfold snapshot_call_slots
      rw [if_neg (by rw [hop]; decide), if_pos hop]
      simp only [Except.ok.injEq]
      omega
    · unfold snapshot_call_slots
      rw [if_neg (by rw [hop]; decide), if_neg (by rw [hop]; decide), if_pos hop]
      dsimp only
      unfold py_len_at
      rw [hget]
      dsimp only
      rw [hlen]
      dsimp only
      rw [if_pos rfl]
      simp only [Except.ok.injEq]
      omega
    · unfold snapshot_call_slots
      rw [if_neg (by rw [hop]; decide), if_neg (by rw [hop]; decide),
        if_neg (by rw [hop]; decide), if_pos hop]
      simp only [Except.ok.injEq]
      omega
  have hcap : capture_stack frame.f_localsplus
      (frame.f_valuestack + 3 * count_except_handlers frame.f_blockstack + nest + vs) =
      .ok (frame.f_localsplus.take
        (frame.f_valuestack + 3 * count_except_handlers frame.f_blockstack + nest + vs)) := by
    unfold capture_stack
    rw [if_pos hroom]
  refine ⟨⟨frame.f_lasti,
    frame.f_localsplus.take
      (frame.f_valuestack + 3 * count_except_handlers frame.f_blockstack + nest + vs),
    frame.co_code, frame.f_blockstack⟩, ?_, ?_⟩
  · unfold snapshot_frame
    rw [hci]
    dsimp only
    rw [hnest]
    dsimp only
    rw [hslots]
    dsimp only
    rw [hcap]
  · simp only [List.length_take]
    omega

def frameC2 : Frame :=
  { f_lasti := 6,
    f_localsplus := [some ⟨10, none⟩, some ⟨11, none⟩, some ⟨12, none⟩,
      some ⟨13, none⟩, some ⟨14, none⟩, some ⟨15, none⟩, some ⟨16, none⟩,
      none, some ⟨17, none⟩],
    f_valuestack := 2, f_stacktop := 9,
    f_blockstack := [⟨EXCEPT_HANDLER, 0, 0⟩],
    instructions := [⟨FOR_ITER, 8⟩, ⟨125, 1⟩, ⟨160, 0⟩, ⟨CALL_METHOD, 1⟩,
      ⟨JUMP_ABSOLUTE, 0⟩],
    co_code := [93, 8, 125, 1, 160, 0, 161, 1, 113, 0] }

theorem c2_witness :
    loop_nesting_level frameC2.instructions (Int.fdiv frameC2.f_lasti 2)
      (Int.fdiv frameC2.f_lasti 2) = .ok 1
    ∧ ∃ r, snapshot_frame frameC2 = .ok r
      ∧ r.stack_content.length =
          frameC2.f_valuestack + 3 * count_except_handlers frameC2.f_blockstack + 1 + 3 := by
  have hnest : loop_nesting_level frameC2.instructions (Int.fdiv frameC2.f_lasti 2)
      (Int.fdiv frameC2.f_lasti 2) = .ok 1 :=
    @loop_nesting_level_eval _ _ _ _ 10 (by decide) (by decide)
  exact ⟨hnest, c2_snapshot_stack_size frameC2 ⟨CALL_METHOD, 1⟩ 1 3 (by decide) hnest
    (Or.inr (Or.inl ⟨by decide, by decide⟩)) (by decide)⟩

/-- Claim C9: for a frame whose active call instruction is
CALL_FUNCTION_KW with argument count N, where the slot that the computed
stack size designates as the top of the stack holds a sized object (the
keyword-name tuple) of length L, the snapshot fails with the assertion
failure exactly when L differs from N, and when L = N it succeeds with the
call-variant contribution 2 + N slots. -/
theorem c9_kw_argument_count_integrity (frame : Frame) (ci : Instr) (nest L : Nat)
    (v : Value)
    (hci : pyGet frame.instructions (Int.fdiv frame.f_lasti 2) = some ci)
    (hnest : loop_nesting_level frame.instructions (Int.fdiv frame.f_lasti 2)
      (Int.fdiv frame.f_lasti 2) = .ok nest)
    (hop : ci.opcode = CALL_FUNCTION_KW)
    (hget : frame.f_localsplus.get?
        (frame.f_valuestack + 3 * count_except_handlers frame.f_blockstack
          + nest + 2 + ci.arg - 1) = some (some v))
    (hvlen : v.py_len = some L)
    (hroom : frame.f_valuestack + 3 * count_except_handlers frame.f_blockstack
        + nest + 2 + ci.arg ≤ frame.f_localsplus.length) :
    (snapshot_frame frame = .error .assertionFailed ↔ L ≠ ci.arg)
    ∧ (L = ci.arg → ∃ r, snapshot_frame frame = .ok r
        ∧ r.stack_content.length =
            frame.f_valuestack + 3 * count_except_handlers frame.f_blockstack
              + nest + 2 + ci.arg) := by
  have hpy : py_len_at frame.f_localsplus
      (frame.f_valuestack + 3 * count_except_handlers frame.f_blockstack
        + nest + 2 + ci.arg - 1) = some L := by
    unfold py_len_at
    rw [hget]
    exact hvlen
  have hok : L = ci.arg → snapshot_frame frame =
      .ok ⟨frame.f_lasti,
        frame.f_localsplus.take
          (frame.f_valuestack + 3 * count_except_handlers frame.f_blockstack
            + nest + 2 + ci.arg),
        frame.co_code, frame.f_blockstack⟩ := by
    intro hL
    unfold snapshot_frame
    rw [hci]
    dsimp only
    rw [hnest]
    dsimp only
    have hslots : snapshot_call_slots frame
        (frame.f_valuestack + 3 * count_except_handlers frame.f_blockstack + nest) ci =
        .ok (frame.f_valuestack + 3 * count_except_handlers frame.f_blockstack
          + nest + 2 + ci.arg) := by
      unfold snapshot_call_slots
      rw [if_neg (by rw [hop]; decide), if_neg (by rw [hop]; decide), if_pos hop]
      dsimp only
      rw [hpy]
      dsimp only
      rw [if_pos (by omega)]
    rw [hslots]
    dsimp only
    unfold capture_stack
    rw [if_pos hroom]
  have herr : L ≠ ci.arg → snapshot_frame frame = .error .assertionFailed := by
    intro hL
    unfold snapshot_frame
    rw [hci]
    dsimp only
    rw [hnest]
    dsimp only
    have hslots : snapshot_call_slots frame
        (frame.f_valuestack + 3 * count_except_handlers frame.f_blockstack + nest) ci =
        .error .assertionFailed := by
      unfold snapshot_call_slots
      rw [if_neg (by rw [hop]; decide), if_neg (by rw [hop]; decide), if_pos hop]
      dsimp only
      rw [hpy]
      dsimp only
      rw [if_neg (by omega)]
    rw [hslots]
  constructor
  · constructor
    · intro hfail
      intro hL
      rw [hok hL] at hfail
      exact absurd hfail (by simp)
    · exact herr
  · intro hL
    refine ⟨_, hok hL, ?_⟩
    simp only [List.length_take]
    omega

def frameC9 : Frame :=
  { f_lasti := 0,
    f_localsplus := [some ⟨1, none⟩, some ⟨2, none⟩, some ⟨3, none⟩,
      some ⟨4, some 1⟩],
    f_valuestack := 1, f_stacktop := 4, f_blockstack := [],
    instructions := [⟨CALL_FUNCTION_KW, 1⟩], co_code := [141, 1] }

theorem c9_witness :
    (snapshot_frame frameC9 = .error .assertionFailed ↔ (1 : Nat) ≠ 1)
    ∧ ((1 : Nat) = 1 → ∃ r, snapshot_frame frameC9 = .ok r
        ∧ r.stack_content.length =
            frameC9.f_valuestack + 3 * count_except_handlers frameC9.f_blockstack
              + 0 + 2 + 1) :=
  c9_kw_argument_count_integrity frameC9 ⟨CALL_FUNCTION_KW, 1⟩ 0 1 ⟨4, some 1⟩
    (by decide) (@loop_nesting_level_eval _ _ _ _ 4 (by decide) (by decide))
    (by decide) (by decide) (by decide) (by decide)

/-! Claim C4: characterisation of loop_nesting_level. -/

/-- Nonnegative Python indices are plain list lookups. -/
lemma pyGet_nonneg_eq {α : Type} (l : List α) (i : Int) (h0 : 0 ≤ i) :
    pyGet l i = l.get? i.toNat := by
  unfold pyGet
  rw [if_neg (by omega)]

/-- A backward branch: a JUMP_ABSOLUTE instruction whose target index
precedes its own index. -/
def is_backward_jump (l : List Instr) (p : Nat) : Bool :=
  match l.get? p with
  | some ins => ins.opcode == JUMP_ABSOLUTE && decide (ins.arg / 2 < p)
  | none => false

/-- Scanning from a nonnegative index never raises IndexError. -/
lemma find_jump_no_error : ∀ (k : Nat) (l : List Instr) (e : Int),
    ((l.length : Int) - e).toNat ≤ k → 0 ≤ e → find_jump l e ≠ .error () := by
  intro k
  induction k with
  | zero =>
    intro l e hk h0
    unfold find_jump
    rw [dif_neg (by omega)]
    simp
  | succ k ih =>
    intro l e hk h0
    unfold find_jump
    by_cases hlt : e < (l.length : Int)
    · rw [dif_pos hlt]
      have hsome : l.get? e.toNat = some (l.get ⟨e.toNat, by omega⟩) :=
        List.get?_eq_get (by omega)
      rw [pyGet_nonneg_eq l e h0, hsome]
      dsimp only
      by_cases hja : (l.get ⟨e.toNat, by omega⟩).opcode = JUMP_ABSOLUTE
      · rw [if_pos hja]
        simp
      · rw [if_neg hja]
        exact ih l (e + 1) (by omega) (by omega)
    · rw [dif_neg hlt]
      simp

/-- The instruction at the break index of find_jump is a JUMP_ABSOLUTE. -/
lemma find_jump_ok_ja : ∀ (k : Nat) (l : List Instr) (e p : Int),
    ((l.length : Int) - e).toNat ≤ k → 0 ≤ e → find_jump l e = .ok (some p) →
    ∃ ins, l.get? p.toNat = some ins ∧ ins.opcode = JUMP_ABSOLUTE := by
  intro k
  induction k with
  | zero =>
    intro l e p hk h0 h
    unfold find_jump at h
    rw [dif_neg (by omega)] at h
    exact absurd h (by simp)
  | succ k ih =>
    intro l e p hk h0 h
    unfold find_jump at h
    by_cases hlt : e < (l.length : Int)
    · rw [dif_pos hlt] at h
      have hsome : l.get? e.toNat = some (l.get ⟨e.toNat, by omega⟩) :=
        List.get?_eq_get (by omega)
      rw [pyGet_nonneg_eq l e h0, hsome] at h
      dsimp only at h
      by_cases hja : (l.get ⟨e.toNat, by omega⟩).opcode = JUMP_ABSOLUTE
      · rw [if_pos hja] at h
        simp only [Except.ok.injEq, Option.some.injEq] at h
        subst h
        exact ⟨_, hsome, hja⟩
      · rw [if_neg hja] at h
        exact ih l (e + 1) p (by omega) (by omega) h
    · rw [dif_neg hlt] at h
      exact absurd h (by simp)

/-- Minimality of the break index: no JUMP_ABSOLUTE occurs strictly
between the scan start and the break index. -/
lemma find_jump_first : ∀ (k : Nat) (l : List Instr) (e p q : Int),
    ((l.length : Int) - e).toNat ≤ k → 0 ≤ e → find_jump l e = .ok (some p) →
    e ≤ q → q < p → ∀ ins, l.get? q.toNat = some ins →
    ins.opcode ≠ JUMP_ABSOLUTE := by
  intro k
  induction k with
  | zero =>
    intro l e p q hk h0 h
    unfold find_jump at h
    rw [dif_neg (by omega)] at h
    exact absurd h (by simp)
  | succ k ih =>
    intro l e p q hk h0 h hq hqp ins hins
    unfold find_jump at h
    by_cases hlt : e < (l.length : Int)
    · rw [dif_pos hlt] at h
      have hsome : l.get? e.toNat = some (l.get ⟨e.toNat, by omega⟩) :=
        List.get?_eq_get (by omega)
      rw [pyGet_nonneg_eq l e h0, hsome] at h
      dsimp only at h
      by_cases hja : (l.get ⟨e.toNat, by omega⟩).opcode = JUMP_ABSOLUTE
      · rw [if_pos hja] at h
        simp only [Except.ok.injEq, Option.some.injEq] at h
        omega
      · rw [if_neg hja] at h
        by_cases hqe : q = e
        · subst hqe
          rw [hins] at hsome
          simp only [Option.some.injEq] at hsome
          rw [hsome]
          exact hja
        · exact ih l (e + 1) p q (by omega) (by omega) h (by omega) hqp ins hins
    · rw [dif_neg hlt] at h
      exact absurd h (by simp)

/-- When the scan runs off the end, no JUMP_ABSOLUTE occurs at or after
the scan start. -/
lemma find_jump_none_no_ja : ∀ (k : Nat) (l : List Instr) (e q : Int),
    ((l.length : Int) - e).toNat ≤ k → 0 ≤ e → find_jump l e = .ok none →
    e ≤ q → q < (l.length : Int) → ∀ ins, l.get? q.toNat = some ins →
    ins.opcode ≠ JUMP_ABSOLUTE := by
  intro k
  induction k with
  | zero =>
    intro l e q hk h0 h hq hql
    omega
  | succ k ih =>
    intro l e q hk h0 h hq hql ins hins
    unfold find_jump at h
    by_cases hlt : e < (l.length : Int)
    · rw [dif_pos hlt] at h
      have hsome : l.get? e.toNat = some (l.get ⟨e.toNat, by omega⟩) :=
        List.get?_eq_get (by omega)
      rw [pyGet_nonneg_eq l e h0, hsome] at h
      dsimp only at h
      by_cases hja : (l.get ⟨e.toNat, by omega⟩).opcode = JUMP_ABSOLUTE
      · rw [if_pos hja] at h
        exact absurd h (by simp)
      · rw [if_neg hja] at h
        by_cases hqe : q = e
        · subst hqe
          rw [hins] at hsome
          simp only [Option.some.injEq] at hsome
          rw [hsome]
          exact hja
        · exact ih l (e + 1) q (by omega) (by omega) h (by omega) hql ins hins
    · omega

/-- When no backward branch occurs at or after the scan start, the
analyzer reports nesting level 0, whatever forward JUMP_ABSOLUTE
instructions it meets on the way. -/
lemma lnl_no_backward : ∀ (k : Nat) (l : List Instr) (s e : Int),
    ((l.length : Int) - e).toNat ≤ k → 0 ≤ s → s ≤ e →
    (∀ p : Nat, p < l.length → e ≤ (p : Int) → is_backward_jump l p = false) →
    loop_nesting_level l s e = .ok 0 := by
  intro k
  induction k with
  | zero =>
    intro l s e hk _ _ _
    exact loop_nesting_level_ge_len l s e (by omega)
  | succ k ih =>
    intro l s e hk h0s hse hnb
    unfold loop_nesting_level
    cases hfj : find_jump l e with
    | error er =>
      cases er
      exact absurd hfj (find_jump_no_error (k + 1) l e hk (by omega))
    | ok o =>
      cases o with
      | none => rfl
      | some p =>
        have hb := find_jump_ok_bounds (k + 1) l e p hk hfj
        obtain ⟨ins, hins, hja⟩ := find_jump_ok_ja (k + 1) l e p hk (by omega) hfj
        have hp0 : 0 ≤ p := by omega
        have hnbp := hnb p.toNat (by omega) (by omega)
        unfold is_backward_jump at hnbp
        rw [hins] at hnbp
        simp only [Bool.and_eq_false_iff, beq_eq_false_iff_ne, ne_eq,
          decide_eq_false_iff_not, not_lt] at hnbp
        have hge : p.toNat ≤ ins.arg / 2 := by
          rcases hnbp with hcon | hle
          · exact absurd hja hcon
          · exact hle
        dsimp only
        rw [pyGet_nonneg_eq l p hp0, hins]
        dsimp only
        rw [if_neg (by omega)]
        exact ih l s (p + 1) (by omega) h0s (by omega)
          (fun q hq1 hq2 => hnb q hq1 (by omega))

/-- When the first backward branch at or after the scan start jumps to a
FOR_ITER before the start of the range, the analyzer returns one more than
the nesting of the recursive range, exactly as the source recursion does. -/
lemma lnl_first_backward : ∀ (k : Nat) (l : List Instr) (s e : Int) (p : Nat) (ins : Instr),
    ((l.length : Int) - e).toNat ≤ k → 0 ≤ s → s ≤ e → e ≤ (p : Int) →
    l.get? p = some ins → ins.opcode = JUMP_ABSOLUTE →
    ((ins.arg / 2 : Nat) : Int) < s →
    (∀ q : Nat, q < p → e ≤ (q : Int) → is_backward_jump l q = false) →
    (∀ tins, l.get? (ins.arg / 2) = some tins → tins.opcode = FOR_ITER) →
    loop_nesting_level l s e =
      Except.map (fun n => 1 + n)
        (loop_nesting_level l (((ins.arg / 2 : Nat) : Int) - 1) ((p : Int) + 1)) := by
  intro k
  induction k with
  | zero =>
    intro l s e p ins hk h0s hse hep hins hja hjt hnb htarget
    obtain ⟨hplen, -⟩ := List.get?_eq_some.mp hins
    exact absurd hplen (by omega)
  | succ k ih =>
    intro l s e p ins hk h0s hse hep hins hja hjt hnb htarget
    obtain ⟨hplen, -⟩ := List.get?_eq_some.mp hins
    conv_lhs => unfold loop_nesting_level
    cases hfj : find_jump l e with
    | error er =>
      cases er
      exact absurd hfj (find_jump_no_error (k + 1) l e hk (by omega))
    | ok o =>
      cases o with
      | none =>
        have hnoja := find_jump_none_no_ja (k + 1) l e (p : Int) hk (by omega) hfj
          (by omega) (by omega) ins (by simpa using hins)
        exact absurd hja hnoja
      | some p' =>
        have hb := find_jump_ok_bounds (k + 1) l e p' hk hfj
        have hp'0 : 0 ≤ p' := by omega
        obtain ⟨ins', hins', hja'⟩ := find_jump_ok_ja (k + 1) l e p' hk (by omega) hfj
        have hp'_le : p' ≤ (p : Int) := by
          by_contra hgt
          push_neg at hgt
          exact absurd hja (find_jump_first (k + 1) l e p' (p : Int) hk (by omega) hfj
            (by omega) hgt ins (by simpa using hins))
        by_cases heq : p' = (p : Int)
        · subst heq
          dsimp only
          rw [pyGet_nonneg_eq l _ hp'0]
          have htn : ((p : Int)).toNat = p := by omega
          rw [htn, hins]
          dsimp only
          rw [if_pos hjt]
          have hjtlen : ins.arg / 2 < l.length := by omega
          have htg : l.get? (ins.arg / 2) = some (l.get ⟨ins.arg / 2, hjtlen⟩) :=
            List.get?_eq_get hjtlen
          rw [htg]
          dsimp only
          rw [if_pos (htarget _ htg)]
          cases loop_nesting_level l (((ins.arg / 2 : Nat) : Int) - 1) ((p : Int) + 1) with
          | error er => rfl
          | ok n => rfl
        · have hp'_lt : p' < (p : Int) := by omega
          have hnbq := hnb p'.toNat (by omega) (by omega)
          unfold is_backward_jump at hnbq
          rw [hins'] at hnbq
          simp only [Bool.and_eq_false_iff, beq_eq_false_iff_ne, ne_eq,
            decide_eq_false_iff_not, not_lt] at hnbq
          have hge : p'.toNat ≤ ins'.arg / 2 := by
            rcases hnbq with hcon | hle
            · exact absurd hja' hcon
            · exact hle
          dsimp only
          rw [pyGet_nonneg_eq l p' hp'0, hins']
          dsimp only
          rw [if_neg (by omega)]
          exact ih l s (p' + 1) p ins (by omega) h0s (by omega) (by omega) hins hja hjt
            (fun q hq1 hq2 => hnb q hq1 (by omega)) htarget

/-- A call site with no enclosing loop; index 3 is a backward
JUMP_ABSOLUTE that is not part of a for loop (its target, index 1, is not a
FOR_ITER) and index 0 is a backward branch earlier in the function. -/
def exC4_noloop : List Instr :=
  [⟨JUMP_ABSOLUTE, 0⟩, ⟨124, 0⟩, ⟨CALL_FUNCTION, 0⟩, ⟨JUMP_ABSOLUTE, 2⟩]

/-- A call site at index 2 inside one for loop, with an extra non-loop
backward JUMP_ABSOLUTE at index 3. -/
def exC4_oneloop : List Instr :=
  [⟨FOR_ITER, 6⟩, ⟨125, 0⟩, ⟨CALL_FUNCTION, 0⟩, ⟨JUMP_ABSOLUTE, 2⟩,
   ⟨JUMP_ABSOLUTE, 0⟩]

/-- A call site at index 4 nested in two for loops. -/
def exC4_twoloop : List Instr :=
  [⟨FOR_ITER, 0⟩, ⟨125, 0⟩, ⟨FOR_ITER, 0⟩, ⟨125, 1⟩, ⟨CALL_FUNCTION, 0⟩,
   ⟨JUMP_ABSOLUTE, 4⟩, ⟨JUMP_ABSOLUTE, 0⟩]

/-- Claim C4: the contract of loop_nesting_level. First conjunct: when no
backward branch (a JUMP_ABSOLUTE whose target index precedes it) occurs at
or after the scan start before the stream ends, the result is 0. Second
conjunct: when the first backward branch found at index p jumps to a
target before the start of the range and the target instruction is
FOR_ITER, the result is one plus the nesting of the range
[target - 1, p + 1]. Remaining conjuncts: call sites enclosed by zero, one
and two for loops yield 0, 1 and 2, in the presence of other non-loop
backward branches elsewhere in the function. -/
theorem c4_loop_nesting_level_contract :
    (∀ (l : List Instr) (s e : Int), 0 ≤ s → s ≤ e →
      (∀ p : Nat, p < l.length → e ≤ (p : Int) → is_backward_jump l p = false) →
      loop_nesting_level l s e = .ok 0)
    ∧ (∀ (l : List Instr) (s e : Int) (p : Nat) (ins : Instr), 0 ≤ s → s ≤ e →
        e ≤ (p : Int) →
        l.get? p = some ins → ins.opcode = JUMP_ABSOLUTE →
        ((ins.arg / 2 : Nat) : Int) < s →
        (∀ q : Nat, q < p → e ≤ (q : Int) → is_backward_jump l q = false) →
        (∀ tins, l.get? (ins.arg / 2) = some tins → tins.opcode = FOR_ITER) →
        loop_nesting_level l s e =
          Except.map (fun n => 1 + n)
            (loop_nesting_level l (((ins.arg / 2 : Nat) : Int) - 1) ((p : Int) + 1)))
    ∧ loop_nesting_level exC4_noloop 2 2 = .ok 0
    ∧ loop_nesting_level exC4_oneloop 2 2 = .ok 1
    ∧ loop_nesting_level exC4_twoloop 4 4 = .ok 2 := by
  refine ⟨?_, ?_, ?_, ?_, ?_⟩
  · intro l s e h1 h2 h3
    exact lnl_no_backward (((l.length : Int) - e).toNat) l s e (le_refl _) h1 h2 h3
  · intro l s e p ins h1 h2 h3 h4 h5 h6 h7 h8
    exact lnl_first_backward (((l.length : Int) - e).toNat) l s e p ins (le_refl _)
      h1 h2 h3 h4 h5 h6 h7 h8
  · exact @loop_nesting_level_eval _ _ _ _ 10 (by decide) (by decide)
  · exact @loop_nesting_level_eval _ _ _ _ 10 (by decide) (by decide)
  · exact @loop_nesting_level_eval _ _ _ _ 10 (by decide) (by decide)

/-- A loop-free instruction list used by the C4 and C10 witnesses. -/
def exC4_plain : List Instr :=
  [⟨124, 0⟩, ⟨CALL_FUNCTION, 0⟩, ⟨83, 0⟩]

/-- A single for loop with the backward jump directly after the call. -/
def exC4_cleanloop : List Instr :=
  [⟨FOR_ITER, 4⟩, ⟨125, 0⟩, ⟨CALL_FUNCTION, 0⟩, ⟨JUMP_ABSOLUTE, 0⟩]

theorem c4_witness :
    loop_nesting_level exC4_plain 1 1 = .ok 0
    ∧ loop_nesting_level exC4_cleanloop 2 2 =
        Except.map (fun n => 1 + n)
          (loop_nesting_level exC4_cleanloop (((0 : Nat) : Int) - 1) (((3 : Nat) : Int) + 1)) := by
  constructor
  · exact c4_loop_nesting_level_contract.1 exC4_plain 1 1 (by decide) (by decide) (by decide)
  · exact c4_loop_nesting_level_contract.2.1 exC4_cleanloop 2 2 3 ⟨JUMP_ABSOLUTE, 0⟩
      (by decide) (by decide) (by decide) (by decide) (by decide) (by decide) (by decide)
      (by
        intro tins ht
        injection ht with h
        rw [← h])

/-- Claim C10: termination of loop_nesting_level. The fuel-indexed copy of
the recursion converges to the total function whenever the fuel exceeds
(length - ending_at).toNat — the measure that every recursive call
strictly decreases, because each passes a strictly larger ending index —
and once the ending index reaches the length of the instruction list the
function returns 0 without recursing. -/
theorem c10_loop_nesting_level_terminates :
    (∀ (l : List Instr) (s e : Int) (fuel : Nat),
      ((l.length : Int) - e).toNat < fuel →
      loop_nesting_level_fuel l s e fuel = some (loop_nesting_level l s e))
    ∧ (∀ (l : List Instr) (s e : Int), (l.length : Int) ≤ e →
      loop_nesting_level l s e = .ok 0) :=
  ⟨fun l s e fuel h => loop_nesting_level_fuel_agree fuel l s e h,
   loop_nesting_level_ge_len⟩

theorem c10_witness :
    (((exC4_plain.length : Int) - 1).toNat < 5
      ∧ loop_nesting_level_fuel exC4_plain 1 1 5 =
          some (loop_nesting_level exC4_plain 1 1))
    ∧ ((exC4_plain.length : Int) ≤ 7
      ∧ loop_nesting_level exC4_plain 1 7 = .ok 0) :=
  ⟨⟨by decide, c10_loop_nesting_level_terminates.1 exC4_plain 1 1 5 (by decide)⟩,
   ⟨by decide, c10_loop_nesting_level_terminates.2 exC4_plain 1 7 (by decide)⟩⟩
